import Mathlib

/-!
Shallow embedding of the scheduling core of `src/app.py` (course-checker).

The embedded functions are:
  * `parse_time`    — `parse_time` (app.py lines 25–32)
  * `check_time_overlap` — `check_time_overlap` (lines 114–123)
  * `has_conflict`  — `has_conflict` (lines 125–132)
  * `find_best_schedule` — `find_best_schedule` (lines 134–159)
  * `filtered_sections`  — the inline filtering block (lines 262–283)
  * `all_conflict` / `blocked_pairs` — the inline conflict explainer (lines 386–401)

Python dicts are modelled as association lists in insertion order (Python ≥ 3.7
iterates dicts in insertion order); days, times and instructors are the strings
the source manipulates.
-/

/-- A `datetime.time` value as produced by `time(hour, minute)`:
hour in 0..23, minute in 0..59 (construction outside the range raises,
which `parse_time` turns into `None`). Stored unnormalised, compared
lexicographically like Python `time` objects. -/
structure PyTime where
  hour : Nat
  minute : Nat
deriving DecidableEq, Repr

/-- Python `<` on `time` objects: lexicographic on (hour, minute). -/
def timeLt (a b : PyTime) : Bool :=
  a.hour < b.hour || (a.hour == b.hour && a.minute < b.minute)

/-- Characters Python `str.strip()` / `int()` treat as whitespace
(ASCII subset; sufficient for the catalog's time strings). -/
def pySpace (c : Char) : Bool :=
  c == ' ' || c == '\t' || c == '\n' || c == '\r'

/-- Python `str.strip()` on a character list. -/
def pyStrip (cs : List Char) : List Char :=
  ((cs.dropWhile pySpace).reverse.dropWhile pySpace).reverse

/-- Python `str.split(sep)` for a one-character separator, on character lists. -/
def pySplit (sep : Char) : List Char → List (List Char)
  | [] => [[]]
  | c :: cs =>
    let rest := pySplit sep cs
    if c == sep then [] :: rest
    else
      match rest with
      | [] => [[c]]
      | r :: rs => (c :: r) :: rs

/-- Python `int(str)`: optional surrounding whitespace, optional sign, at
least one ASCII digit; anything else raises (modelled as `none`). -/
def pyInt (cs : List Char) : Option Int :=
  let t := pyStrip cs
  let (neg, digits) :=
    match t with
    | '-' :: rest => (true, rest)
    | '+' :: rest => (false, rest)
    | _ => (false, t)
  if digits ≠ [] && digits.all Char.isDigit then
    let n : Nat := digits.foldl (fun acc c => 10 * acc + (c.toNat - 48)) 0
    some (if neg then -(n : Int) else (n : Int))
  else none

/-- `parse_time` (app.py lines 25–32): strip, split on `:`, unpack into
exactly two ints, build `time(hour, minute)`; any failure is caught by the
bare `except` and yields `None`. -/
def parse_time (s : String) : Option PyTime :=
  match (pySplit ':' (pyStrip s.toList)).mapM pyInt with
  | some [h, m] =>
    if 0 ≤ h && h ≤ 23 && 0 ≤ m && m ≤ 59 then
      some ⟨h.toNat, m.toNat⟩
    else none
  | _ => none

/-- One schedule entry, the dict `{'day': ..., 'start': ..., 'end': ...}`
built at app.py lines 94–98 (`end_` models the `'end'` key). -/
structure Slot where
  day : String
  start : String
  end_ : String
deriving DecidableEq, Repr

/-- The `Course` class (app.py lines 15–23); `sect` models the `section`
attribute. -/
structure Course where
  code : String
  name : String
  sect : String
  instructor : String
  dates : String
  schedule : List Slot
  credits : Int
deriving DecidableEq, Repr

/-- `check_time_overlap` (app.py lines 114–123): parse the four times; if
all parsed, half-open interval test `start1 < end2 and start2 < end1`;
otherwise `False`. It does not look at the day. -/
def check_time_overlap (slot1 slot2 : Slot) : Bool :=
  match parse_time slot1.start, parse_time slot1.end_,
        parse_time slot2.start, parse_time slot2.end_ with
  | some start1, some end1, some start2, some end2 =>
    timeLt start1 end2 && timeLt start2 end1
  | _, _, _, _ => false

/-- The per-slot-pair test inside `has_conflict` (app.py lines 129–130):
same day and overlapping times. -/
def slot_conflict (slot1 slot2 : Slot) : Bool :=
  slot1.day == slot2.day && check_time_overlap slot1 slot2

/-- `has_conflict` (app.py lines 125–132): some slot of `course1` and some
slot of `course2` share a day and overlap. -/
def has_conflict (course1 course2 : Course) : Bool :=
  course1.schedule.any fun slot1 =>
    course2.schedule.any fun slot2 => slot_conflict slot1 slot2

/-- `itertools.product` over a list of candidate lists, in Python's order
(rightmost factor varies fastest). -/
def productL : List (List Course) → List (List Course)
  | [] => [[]]
  | l :: ls => l.flatMap fun x => (productL ls).map (x :: ·)

/-- The double loop at app.py lines 146–153: does some pair `i < j` of the
combination conflict? -/
def has_any_conflict : List Course → Bool
  | [] => false
  | c :: rest => rest.any (fun d => has_conflict c d) || has_any_conflict rest

/-- `find_best_schedule` (app.py lines 134–159): iterate
`product(*all_sections)` over the dict's values in key order and return the
first combination with no pairwise conflict, else `None`. -/
def find_best_schedule (course_sections_dict : List (String × List Course)) :
    Option (List Course) :=
  (productL (course_sections_dict.map Prod.snd)).find?
    fun combination => !has_any_conflict combination

/-- The `has_class_on_leave` computation (app.py lines 267–272): only
scans slots when `leave_days` is non-empty (a Python truthiness test). -/
def has_class_on_leave (course : Course) (leave_days : List String) : Bool :=
  if leave_days.isEmpty then false
  else course.schedule.any fun slot => leave_days.contains slot.day

/-- The keep/skip decision for one section in the filtering block
(app.py lines 267–283): skip on a leave-day clash; if a teacher-preferences
entry exists for this code, keep only preferred instructors. -/
def keep_course (course : Course) (leave_days : List String)
    (prefs : Option (List String)) : Bool :=
  if has_class_on_leave course leave_days then false
  else
    match prefs with
    | some teachers => teachers.contains course.instructor
    | none => true

/-- Python `teacher_preferences[code]` guarded by `code in teacher_preferences`. -/
def lookup_prefs (teacher_preferences : List (String × List String))
    (code : String) : Option (List String) :=
  (teacher_preferences.find? fun p => p.1 == code).map Prod.snd

/-- The inner loop of the filtering block (app.py lines 265–283): the
sections of one requirement surviving the leave-day and teacher filters,
appended in catalog order. -/
def filter_requirement (courses : List Course) (leave_days : List String)
    (prefs : Option (List String)) : List Course :=
  courses.filter fun course => keep_course course leave_days prefs

/-- The filtering block (app.py lines 262–283): for each selected code, the
catalog sections surviving leave-day and teacher filters, in catalog order. -/
def filtered_sections (selected_course_codes : List String)
    (courses_by_code : String → List Course) (leave_days : List String)
    (teacher_preferences : List (String × List String)) :
    List (String × List Course) :=
  selected_course_codes.map fun code =>
    (code, filter_requirement (courses_by_code code) leave_days
      (lookup_prefs teacher_preferences code))

/-- Lines 262–286 of app.py as one step: build `filtered_sections`, then
call `find_best_schedule` on it (unconditionally — there is no emptiness
check in between). -/
def generate_schedule (selected_course_codes : List String)
    (courses_by_code : String → List Course) (leave_days : List String)
    (teacher_preferences : List (String × List String)) :
    Option (List Course) :=
  find_best_schedule
    (filtered_sections selected_course_codes courses_by_code leave_days
      teacher_preferences)

/-- The `all_conflict` computation (app.py lines 391–398): every section
pair between the two candidate lists conflicts (vacuously true when a list
is empty, as in the source's loop). -/
def all_conflict (sections1 sections2 : List Course) : Bool :=
  sections1.all fun s1 => sections2.all fun s2 => has_conflict s1 s2

/-- The explainer loop (app.py lines 386–401): for each unordered pair of
selected codes (in input order), report the pair when `all_conflict` holds. -/
def blocked_pairs : List (String × List Course) → List (String × String)
  | [] => []
  | (code1, sections1) :: rest =>
    ((rest.filter fun p => all_conflict sections1 p.2).map
      fun p => (code1, p.1)) ++ blocked_pairs rest

/-- The caller's truthiness test on the result (app.py line 288,
`if best_schedule:`): Python `None` and `[]` are both falsy. -/
def schedule_truthy : Option (List Course) → Bool
  | none => false
  | some l => !l.isEmpty

/-! ### Concrete fixtures (the spec's running scenario) -/

def slotMon9 : Slot := ⟨"Monday", "09:00", "10:00"⟩

def slotMon10 : Slot := ⟨"Monday", "10:00", "11:00"⟩

def slotMon11 : Slot := ⟨"Monday", "11:00", "12:00"⟩

def exA1 : Course :=
  ⟨"19CS101", "Algorithms", "A1", "Rao", "01-01-2025 to 01-05-2025", [slotMon9], 3⟩

def exB1 : Course :=
  ⟨"19CS102", "Databases", "B1", "Iyer", "01-01-2025 to 01-05-2025", [slotMon9], 3⟩

def exB2 : Course :=
  ⟨"19CS102", "Databases", "B2", "Mehta", "01-01-2025 to 01-05-2025", [slotMon11], 3⟩

def exDict : List (String × List Course) :=
  [("19CS101", [exA1]), ("19CS102", [exB1, exB2])]

/-! ### Helper lemmas -/

/-- Membership in the cartesian product: a combination picks one element
from each candidate list, in order. -/
theorem mem_productL : ∀ (ls : List (List Course)) (comb : List Course),
    comb ∈ productL ls ↔ List.Forall₂ (fun l x => x ∈ l) ls comb := by
  intro ls
  induction ls with
  | nil =>
    intro comb
    simp [productL, List.forall₂_nil_left_iff]
  | cons l ls ih =>
    intro comb
    simp only [productL, List.mem_flatMap, List.mem_map,
      List.forall₂_cons_left_iff]
    constructor
    · rintro ⟨x, hx, c, hc, rfl⟩
      exact ⟨x, c, hx, (ih c).1 hc, rfl⟩
    · rintro ⟨x, c, hx, hc, rfl⟩
      exact ⟨x, hx, c, (ih c).2 hc, rfl⟩

/-- `has_any_conflict` is the pairwise-conflict test on the combination. -/
theorem has_any_conflict_eq_false : ∀ (l : List Course),
    has_any_conflict l = false ↔ l.Pairwise (fun a b => has_conflict a b = false) := by
  intro l
  induction l with
  | nil => simp [has_any_conflict]
  | cons c rest ih =>
    simp only [has_any_conflict, Bool.or_eq_false_iff, List.pairwise_cons, ih,
      List.any_eq_false, Bool.not_eq_true]

/-- `find?` returns the first element satisfying the predicate. -/
theorem find?_first {α : Type} (p : α → Bool) :
    ∀ (l : List α) (a : α), l.find? p = some a →
      ∃ i : Fin l.length, l.get i = a ∧ p a = true ∧
        ∀ j : Fin l.length, j.val < i.val → p (l.get j) = false := by
  intro l
  induction l with
  | nil => intro a h; simp [List.find?] at h
  | cons x xs ih =>
    intro a h
    rw [List.find?] at h
    cases hpx : p x with
    | true =>
      rw [hpx] at h
      injection h with h
      subst h
      refine ⟨⟨0, by simp⟩, rfl, hpx, ?_⟩
      intro j hj
      exact absurd hj (Nat.not_lt_zero _)
    | false =>
      rw [hpx] at h
      obtain ⟨i, hget, hpa, hfirst⟩ := ih a h
      refine ⟨i.succ, by simpa using hget, hpa, ?_⟩
      intro j hj
      rcases j with ⟨jv, hjv⟩
      cases jv with
      | zero => simpa using hpx
      | succ j' =>
        have : j' < i.val := by simpa [Fin.succ] using hj
        simpa using hfirst ⟨j', by omega⟩ this

/-! ### Claim theorems -/

/-- C1: whenever `find_best_schedule` returns a schedule rather than `None`,
the schedule picks exactly one section per requirement of the input dict (in
input order), and every pair of chosen sections is conflict-free under
`has_conflict`. -/
theorem find_best_schedule_sound (d : List (String × List Course))
    (sched : List Course) (h : find_best_schedule d = some sched) :
    List.Forall₂ (fun (p : String × List Course) c => c ∈ p.2) d sched ∧
    ∀ i j : Fin sched.length, i.val < j.val →
      has_conflict (sched.get i) (sched.get j) = false := by
  unfold find_best_schedule at h
  have hmem := List.mem_of_find?_eq_some h
  have hpa := List.find?_some h
  have hf₂ : List.Forall₂ (fun l x => x ∈ l) (d.map Prod.snd) sched :=
    (mem_productL _ _).1 hmem
  rw [List.forall₂_map_left_iff] at hf₂
  have hnc : has_any_conflict sched = false := by simpa using hpa
  have hpw := (has_any_conflict_eq_false sched).1 hnc
  exact ⟨hf₂, fun i j hij => List.pairwise_iff_get.1 hpw i j hij⟩

/-- C1 witness: on the spec's running scenario the returned schedule picks
one section per requirement. -/
theorem find_best_schedule_sound_witness :
    List.Forall₂ (fun (p : String × List Course) c => c ∈ p.2) exDict
      [exA1, exB2] :=
  (find_best_schedule_sound exDict [exA1, exB2] (by decide)).1

/-- C2: for slots with well-formed times, the per-slot conflict test of
`has_conflict` holds iff the slots share a day and satisfy the half-open
overlap test `start1 < end2 and start2 < end1`; in particular touching
intervals do not conflict, identical intervals do, and different days never
conflict. -/
theorem slot_conflict_iff (s1 s2 : Slot) (t1 e1 t2 e2 : PyTime)
    (h1 : parse_time s1.start = some t1) (h2 : parse_time s1.end_ = some e1)
    (h3 : parse_time s2.start = some t2) (h4 : parse_time s2.end_ = some e2) :
    (slot_conflict s1 s2 = true ↔
      (s1.day = s2.day ∧ timeLt t1 e2 = true ∧ timeLt t2 e1 = true)) ∧
    (s1.day ≠ s2.day → slot_conflict s1 s2 = false) ∧
    slot_conflict slotMon9 slotMon10 = false ∧
    slot_conflict slotMon9 slotMon9 = true := by
  have hiff : slot_conflict s1 s2 = true ↔
      (s1.day = s2.day ∧ timeLt t1 e2 = true ∧ timeLt t2 e1 = true) := by
    unfold slot_conflict check_time_overlap
    rw [h1, h2, h3, h4]
    simp [Bool.and_eq_true, beq_iff_eq, and_assoc]
  refine ⟨hiff, ?_, by decide, by decide⟩
  intro hne
  cases hc : slot_conflict s1 s2
  · rfl
  · exact absurd (hiff.1 hc).1 hne

/-- C2 witness: touching intervals Mon 09:00–10:00 and Mon 10:00–11:00 do
not conflict. -/
theorem slot_conflict_iff_witness : slot_conflict slotMon9 slotMon10 = false :=
  (slot_conflict_iff slotMon9 slotMon10 ⟨9, 0⟩ ⟨10, 0⟩ ⟨10, 0⟩ ⟨11, 0⟩
    (by decide) (by decide) (by decide) (by decide)).2.2.1

/-- C3 counterexample: `has_conflict` is not reflexive-false — a section
with a well-formed slot conflicts with itself. -/
theorem has_conflict_self_cex : has_conflict exA1 exA1 = true := by decide

theorem check_time_overlap_symm (s1 s2 : Slot) :
    check_time_overlap s1 s2 = check_time_overlap s2 s1 := by
  unfold check_time_overlap
  cases parse_time s1.start <;> cases parse_time s1.end_ <;>
    cases parse_time s2.start <;> cases parse_time s2.end_ <;>
    simp [Bool.and_comm]

theorem slot_conflict_symm (s1 s2 : Slot) :
    slot_conflict s1 s2 = slot_conflict s2 s1 := by
  unfold slot_conflict
  rw [check_time_overlap_symm]
  by_cases h : s1.day = s2.day
  · rw [h]
  · rw [beq_false_of_ne h, beq_false_of_ne (Ne.symm h)]

theorem has_conflict_symm (c1 c2 : Course) :
    has_conflict c1 c2 = has_conflict c2 c1 := by
  unfold has_conflict
  rw [Bool.eq_iff_iff]
  simp only [List.any_eq_true]
  constructor
  · rintro ⟨s1, hs1, s2, hs2, h⟩
    exact ⟨s2, hs2, s1, hs1, by rw [slot_conflict_symm]; exact h⟩
  · rintro ⟨s2, hs2, s1, hs1, h⟩
    exact ⟨s1, hs1, s2, hs2, by rw [slot_conflict_symm]; exact h⟩

/-- C3 (amended): `check_time_overlap` and `has_conflict` are symmetric,
but the conflict relation is not reflexive-false: any course having a slot
with parseable times and start before end conflicts with itself. -/
theorem conflict_relation_props :
    (∀ s1 s2 : Slot, check_time_overlap s1 s2 = check_time_overlap s2 s1) ∧
    (∀ c1 c2 : Course, has_conflict c1 c2 = has_conflict c2 c1) ∧
    (∀ (c : Course), ∀ s ∈ c.schedule, ∀ t e : PyTime,
      parse_time s.start = some t → parse_time s.end_ = some e →
      timeLt t e = true → has_conflict c c = true) := by
  refine ⟨check_time_overlap_symm, has_conflict_symm, ?_⟩
  intro c s hs t e ht he hlt
  unfold has_conflict
  rw [List.any_eq_true]
  refine ⟨s, hs, ?_⟩
  rw [List.any_eq_true]
  refine ⟨s, hs, ?_⟩
  unfold slot_conflict check_time_overlap
  rw [ht, he]
  simp [hlt]

/-- C3 witness: a concrete self-conflict via the amended theorem. -/
theorem conflict_relation_props_witness : has_conflict exB2 exB2 = true :=
  conflict_relation_props.2.2 exB2 slotMon11 (by decide) ⟨11, 0⟩ ⟨12, 0⟩
    (by decide) (by decide) (by decide)

/-- A slot whose start time `"99:99"` matches the catalog regex shape but
does not parse (`time(99, 99)` raises). -/
def badSlot : Slot := ⟨"Monday", "99:99", "10:00"⟩

def badCourse : Course :=
  ⟨"19CS103", "Broken", "C1", "Nair", "01-01-2025 to 01-05-2025", [badSlot], 3⟩

/-- C4 counterexample: on an unparseable time the overlap check silently
reports no conflict, and the malformed section flows through
`find_best_schedule` unrejected — it is even returned in a schedule. -/
theorem malformed_time_cex :
    parse_time badSlot.start = none ∧
    check_time_overlap badSlot slotMon9 = false ∧
    find_best_schedule [("19CS103", [badCourse])] = some [badCourse] := by
  decide

/-- C4 (amended): when any of the four times is unparseable,
`check_time_overlap` returns `false` (reports no conflict) instead of
failing closed. -/
theorem check_time_overlap_malformed (s1 s2 : Slot)
    (h : parse_time s1.start = none ∨ parse_time s1.end_ = none ∨
      parse_time s2.start = none ∨ parse_time s2.end_ = none) :
    check_time_overlap s1 s2 = false := by
  unfold check_time_overlap
  cases hA : parse_time s1.start <;> cases hB : parse_time s1.end_ <;>
    cases hC : parse_time s2.start <;> cases hD : parse_time s2.end_ <;>
    simp_all

/-- C4 witness: the amended rule applied to the concrete malformed slot. -/
theorem check_time_overlap_malformed_witness :
    check_time_overlap badSlot slotMon10 = false :=
  check_time_overlap_malformed badSlot slotMon10 (Or.inl (by decide))

/-- C10: on an empty requirements dict, `find_best_schedule` returns the
empty list (not `None`), and the caller's truthiness test
(`if best_schedule:`) treats that empty list as no schedule found. -/
theorem find_best_schedule_empty_requirements :
    find_best_schedule [] = some [] ∧
    schedule_truthy (find_best_schedule []) = false := by decide

/-- If some requirement has an empty candidate list, the cartesian product
of the candidate lists is empty. -/
theorem productL_eq_nil : ∀ (ls : List (List Course)), [] ∈ ls → productL ls = [] := by
  intro ls h
  induction ls with
  | nil => simp at h
  | cons l ls ih =>
    rcases List.mem_cons.1 h with h1 | h1
    · rw [← h1]
      simp [productL]
    · rw [productL, ih h1]
      simp

def monOnlyCourse : Course :=
  ⟨"19CS104", "MonOnly", "S1", "Das", "01-01-2025 to 01-05-2025", [slotMon9], 3⟩

/-- C5 counterexample: with `excludedDays = {Monday}` and a requirement whose
only section meets on Monday, filtering empties the candidate list, yet no
error is raised before search: the pipeline still runs `find_best_schedule`
on the filtered dict, whose `None` (empty-result search failure) is the only
report. -/
theorem empty_candidates_cex :
    filtered_sections ["19CS104"] (fun _ => [monOnlyCourse]) ["Monday"] [] =
      [("19CS104", [])] ∧
    generate_schedule ["19CS104"] (fun _ => [monOnlyCourse]) ["Monday"] [] = none ∧
    find_best_schedule [("19CS104", [])] = none := by decide

/-- C5 (amended): when constraint filtering leaves some requirement with an
empty candidate list, the pipeline does not fail fast: the search engine is
still applied to the filtered dict, and the run is reported via the engine's
empty-result `None`. -/
theorem empty_candidates_still_searched (selected : List String)
    (cbc : String → List Course) (ld : List String)
    (tp : List (String × List String))
    (h : ∃ p ∈ filtered_sections selected cbc ld tp, p.2 = []) :
    generate_schedule selected cbc ld tp =
      find_best_schedule (filtered_sections selected cbc ld tp) ∧
    generate_schedule selected cbc ld tp = none := by
  refine ⟨rfl, ?_⟩
  obtain ⟨p, hp, hnil⟩ := h
  have hmem : [] ∈ (filtered_sections selected cbc ld tp).map Prod.snd := by
    rw [← hnil]
    exact List.mem_map_of_mem Prod.snd hp
  unfold generate_schedule find_best_schedule
  rw [productL_eq_nil _ hmem]
  rfl

/-- C5 witness: the amended statement at the concrete Monday scenario. -/
theorem empty_candidates_still_searched_witness :
    generate_schedule ["19CS104"] (fun _ => [monOnlyCourse]) ["Monday"] [] =
      none :=
  (empty_candidates_still_searched ["19CS104"] (fun _ => [monOnlyCourse])
    ["Monday"] [] ⟨("19CS104", []), by decide, rfl⟩).2

/-- The keep/skip decision holds iff no slot is on an excluded day and the
instructor is allowed (vacuously when no preference entry exists). -/
theorem keep_course_iff (c : Course) (ld : List String)
    (prefs : Option (List String)) :
    keep_course c ld prefs = true ↔
      ((∀ s ∈ c.schedule, s.day ∉ ld) ∧
        ∀ ts, prefs = some ts → c.instructor ∈ ts) := by
  have hleave : has_class_on_leave c ld = false ↔
      ∀ s ∈ c.schedule, s.day ∉ ld := by
    unfold has_class_on_leave
    cases ld with
    | nil => simp
    | cons d ds => simp [List.any_eq_false]
  unfold keep_course
  cases hchk : has_class_on_leave c ld with
  | false =>
    cases prefs with
    | none =>
      constructor
      · intro _
        refine ⟨hleave.1 hchk, ?_⟩
        intro ts h
        cases h
      · intro _
        rfl
    | some ts =>
      constructor
      · intro h
        refine ⟨hleave.1 hchk, ?_⟩
        intro ts' h'
        injection h' with h'
        rw [← h']
        exact List.elem_iff.1 h
      · rintro ⟨-, h⟩
        exact List.elem_iff.2 (h ts rfl)
  | true =>
    constructor
    · intro h
      exact absurd h (by simp)
    · rintro ⟨hall, -⟩
      have h2 := hleave.2 hall
      rw [hchk] at h2
      exact absurd h2 (by decide)

/-- C6: the constraint filter keeps a section iff none of its slots falls on
an excluded day and, when a teacher-preferences entry exists for the
requirement, its instructor belongs to it (no entry allows all); survivors
keep the catalog's relative order (they form a sublist of it). -/
theorem filter_requirement_spec (courses : List Course) (ld : List String)
    (prefs : Option (List String)) :
    (∀ c : Course, c ∈ filter_requirement courses ld prefs ↔
      (c ∈ courses ∧ (∀ s ∈ c.schedule, s.day ∉ ld) ∧
        ∀ ts, prefs = some ts → c.instructor ∈ ts)) ∧
    (filter_requirement courses ld prefs).Sublist courses := by
  refine ⟨?_, List.filter_sublist courses⟩
  intro c
  rw [filter_requirement, List.mem_filter, keep_course_iff]

/-- C6 witness: the filter at the concrete Monday scenario is a sublist of
the catalog. -/
theorem filter_requirement_spec_witness :
    (filter_requirement [monOnlyCourse] ["Monday"] none).Sublist
      [monOnlyCourse] :=
  (filter_requirement_spec [monOnlyCourse] ["Monday"] none).2

/-- The explainer reports exactly the ordered-as-input pairs of requirements
whose candidate lists are fully blocked: membership in `blocked_pairs` is
equivalent to picking a two-element sublist of the filtered dict whose
candidate lists all-conflict. -/
theorem blocked_pairs_iff :
    ∀ (filtered : List (String × List Course)) (q : String × String),
      q ∈ blocked_pairs filtered ↔
        ∃ p1 p2 : String × List Course, [p1, p2].Sublist filtered ∧
          q = (p1.1, p2.1) ∧ all_conflict p1.2 p2.2 = true := by
  intro filtered
  induction filtered with
  | nil =>
    intro q
    simp [blocked_pairs]
  | cons hd rest ih =>
    intro q
    simp only [blocked_pairs, List.mem_append, List.mem_map, List.mem_filter, ih]
    constructor
    · rintro (⟨p, ⟨hp, hall⟩, rfl⟩ | ⟨p1, p2, hsub, rfl, hall⟩)
      · exact ⟨hd, p, (List.singleton_sublist.2 hp).cons₂ hd, rfl, hall⟩
      · exact ⟨p1, p2, hsub.cons hd, rfl, hall⟩
    · rintro ⟨p1, p2, hsub, rfl, hall⟩
      cases hsub with
      | cons _ h => exact Or.inr ⟨p1, p2, h, rfl, hall⟩
      | cons₂ _ h => exact Or.inl ⟨p2, ⟨List.singleton_sublist.1 h, hall⟩, rfl⟩

/-- C7: if every cross pair of candidates of two requirements conflicts,
the search over just those two requirements returns `None`; `all_conflict`
holds exactly when every candidate pair conflicts, and the explainer
reports exactly the fully-blocked unordered requirement pairs. -/
theorem fully_blocked_pair (code1 code2 : String) (l1 l2 : List Course)
    (h : ∀ s1 ∈ l1, ∀ s2 ∈ l2, has_conflict s1 s2 = true) :
    find_best_schedule [(code1, l1), (code2, l2)] = none ∧
    all_conflict l1 l2 = true ∧
    (∀ m1 m2 : List Course, all_conflict m1 m2 = true ↔
      ∀ s1 ∈ m1, ∀ s2 ∈ m2, has_conflict s1 s2 = true) ∧
    ∀ (filtered : List (String × List Course)) (q : String × String),
      q ∈ blocked_pairs filtered ↔
        ∃ p1 p2 : String × List Course, [p1, p2].Sublist filtered ∧
          q = (p1.1, p2.1) ∧ all_conflict p1.2 p2.2 = true := by
  have hallc : ∀ m1 m2 : List Course, all_conflict m1 m2 = true ↔
      ∀ s1 ∈ m1, ∀ s2 ∈ m2, has_conflict s1 s2 = true := by
    intro m1 m2
    simp [all_conflict, List.all_eq_true]
  refine ⟨?_, (hallc l1 l2).2 h, hallc, blocked_pairs_iff⟩
  unfold find_best_schedule
  rw [List.find?_eq_none]
  intro comb hcomb
  have h2 := (mem_productL _ _).1 hcomb
  cases h2 with
  | cons hs1 htail =>
    cases htail with
    | cons hs2 hnil =>
      cases hnil
      simp [has_any_conflict, h _ hs1 _ hs2]

/-- C7 witness: two single-section requirements meeting Mon 09:00–10:00
yield no valid assignment. -/
theorem fully_blocked_pair_witness :
    find_best_schedule [("19CS101", [exA1]), ("19CS102", [exB1])] = none :=
  (fully_blocked_pair "19CS101" "19CS102" [exA1] [exB1] (by decide)).1

/-- C8: the search output is fully determined by its input as the first
conflict-free combination in the depth-first, left-to-right (stable
candidate order) enumeration of `itertools.product`: every combination
strictly earlier in that order has a conflict. -/
theorem find_best_schedule_first (d : List (String × List Course))
    (sched : List Course) (h : find_best_schedule d = some sched) :
    ∃ i : Fin (productL (d.map Prod.snd)).length,
      (productL (d.map Prod.snd)).get i = sched ∧
      has_any_conflict sched = false ∧
      ∀ j : Fin (productL (d.map Prod.snd)).length, j.val < i.val →
        has_any_conflict ((productL (d.map Prod.snd)).get j) = true := by
  unfold find_best_schedule at h
  obtain ⟨i, hget, hpa, hfirst⟩ := find?_first _ _ _ h
  refine ⟨i, hget, by simpa using hpa, ?_⟩
  intro j hj
  simpa using hfirst j hj

/-- C8 witness: on the running scenario the returned schedule is the first
conflict-free combination in product order. -/
theorem find_best_schedule_first_witness :
    ∃ i : Fin (productL (exDict.map Prod.snd)).length,
      (productL (exDict.map Prod.snd)).get i = [exA1, exB2] ∧
      has_any_conflict [exA1, exB2] = false ∧
      ∀ j : Fin (productL (exDict.map Prod.snd)).length, j.val < i.val →
        has_any_conflict ((productL (exDict.map Prod.snd)).get j) = true :=
  find_best_schedule_first exDict [exA1, exB2] (by decide)

/-- C9 counterexample: the engine has no findAll mode — on a catalog with
two distinct valid assignments it returns only the first, omitting another
valid, distinct combination (any findAll limit of at least 2 would have to
include it). -/
theorem no_find_all_cex :
    find_best_schedule [("19CS102", [exB1, exB2])] = some [exB1] ∧
    [exB2] ∈ productL [[exB1, exB2]] ∧
    has_any_conflict [exB2] = false ∧
    [exB1] ≠ ([exB2] : List Course) := by decide

/-- C9 (amended): the only search mode is find-first:
`find_best_schedule` returns at most one assignment, so the returned
results trivially never exceed any positive limit and are distinct. -/
theorem find_best_schedule_at_most_one (d : List (String × List Course)) :
    (find_best_schedule d).toList.length ≤ 1 ∧
    (find_best_schedule d).toList.Nodup := by
  cases find_best_schedule d <;> simp
